import Mathlib

/-!
# Verification of the greentic-dev pack build pipeline

Shallow embedding of `src/pack_build.rs` and `src/path_safety.rs` from the
greentic-dev repository.  JSON values (`serde_json::Value`) are modelled by the
inductive `Json`; JSON objects are association lists in insertion order with
unique keys (as `serde_json::Map` guarantees).  Machine strings are Lean
`String`s; semver `Version` and `VersionReq` values are modelled by their
display strings.  External services (the serde_json string parser, the
component resolver's lookup, the schema validator, the archive assembler, the
filesystem canonicalizer) enter as explicit function parameters.
-/

set_option autoImplicit false

namespace GreenticDev

/-- `str::starts_with` (over the character list, so that it evaluates by
kernel reduction). -/
def str_starts_with (s p : String) : Bool :=
  p.data.isPrefixOf s.data

/-- `str::trim`: strip leading and trailing whitespace. -/
def str_trim (s : String) : String :=
  String.mk (((s.data.dropWhile Char.isWhitespace).reverse.dropWhile
    Char.isWhitespace).reverse)

/-- `str::split_once` on a single separator character: split at its first
occurrence, when any. -/
def split_once_char (c : Char) : List Char → Option (List Char × List Char)
  | [] => none
  | x :: rest =>
    if x = c then some ([], rest)
    else (split_once_char c rest).map (fun p => (x :: p.1, p.2))

/-- Model of `serde_json::Value`. -/
inductive Json where
  | null
  | bool (b : Bool)
  | num (n : Int)
  | str (s : String)
  | arr (elems : List Json)
  | obj (fields : List (String × Json))

/-- First value stored under key `k` (serde_json maps have unique keys). -/
def lookupField (fields : List (String × Json)) (k : String) : Option Json :=
  match fields with
  | [] => none
  | (k', v) :: rest => if k' = k then some v else lookupField rest k

/-- `Map::entry(k).or_insert(v)`: keep the map unchanged when `k` is present,
otherwise append `(k, v)`. -/
def orInsertField (fields : List (String × Json)) (k : String) (v : Json) :
    List (String × Json) :=
  match fields with
  | [] => [(k, v)]
  | (k', v') :: rest =>
    if k' = k then (k', v') :: rest else (k', v') :: orInsertField rest k v

/-- Replace the value stored under key `k` (no-op when `k` is absent);
models writing through a `get_mut` reference. -/
def setField (fields : List (String × Json)) (k : String) (v : Json) :
    List (String × Json) :=
  match fields with
  | [] => []
  | (k', v') :: rest =>
    if k' = k then (k', v) :: rest else (k', v') :: setField rest k v

namespace Json

/-- `Value::get` with a string index: only objects yield a value. -/
def get (j : Json) (k : String) : Option Json :=
  match j with
  | .obj fields => lookupField fields k
  | _ => none

/-- `Value::as_str`. -/
def asStr (j : Json) : Option String :=
  match j with
  | .str s => some s
  | _ => none

/-- `Value::as_array`. -/
def asArr (j : Json) : Option (List Json) :=
  match j with
  | .arr xs => some xs
  | _ => none

/-- `Value::as_object`. -/
def asObj (j : Json) : Option (List (String × Json)) :=
  match j with
  | .obj fields => some fields
  | _ => none

end Json

/-- `ResolvedComponent` from `component_resolver` (fields as used by
`pack_build.rs`; the semver version is modelled by its display string, and the
raw manifest/schema/capability documents stay unparsed strings exactly as in
the source). -/
structure ResolvedComponent where
  name : String
  version : String
  wasm_path : String
  wasm_hash : String
  manifest_json : Option String
  schema_json : Option String
  capabilities_json : Option String
  world : String
  deriving DecidableEq

/-- `ResolvedNode` from `component_resolver` as consumed by `pack_build.rs`. -/
structure ResolvedNode where
  node_id : String
  component : ResolvedComponent
  pointer : String
  config : Json

/-- `greentic_flow::flow_bundle::NodeRef`: the validated bundle's per-node
record (component pin name plus version-requirement display string). -/
structure NodeRef where
  node_id : String
  name : String
  version_req : String
  schema_id : Option String
  deriving DecidableEq

/-- The parts of `greentic_flow::flow_bundle::FlowBundle` that
`pack_build.rs` reads: the flow id and the ordered node list. -/
structure Bundle where
  id : String
  nodes : List NodeRef
  deriving DecidableEq

/-- `component_resolver::NodeSchemaError`. -/
structure NodeSchemaError where
  node_id : String
  component : String
  pointer : String
  message : String
  deriving DecidableEq

/-- `is_builtin_component` from `pack_build.rs`. -/
def is_builtin_component (name : String) : Bool :=
  name == "component.exec" || name == "flow.call" || name == "session.wait"
    || str_starts_with name "emit"

/-- `default_operation` from `pack_build.rs`: parse the raw manifest string
(`parse` models `serde_json::from_str`; an absent manifest parses the empty
string, which fails) and read `operations[0].name` as a string. -/
def default_operation (parse : String → Option Json) (c : ResolvedComponent) :
    Except String (Option String) :=
  match parse (c.manifest_json.getD "") with
  | none => .error "invalid manifest JSON"
  | some manifest =>
    .ok ((((manifest.get "operations").bind Json.asArr).bind List.head?).bind
      (fun op => (op.get "name").bind Json.asStr))

/-- The `has_op` test of `ensure_node_operations`: a non-blank string under
`operation` or under `op`. -/
def has_explicit_op (cfg : List (String × Json)) : Bool :=
  (match lookupField cfg "operation" with
   | some (.str s) => !(str_trim s).data.isEmpty
   | _ => false)
  || (match lookupField cfg "op" with
      | some (.str s) => !(str_trim s).data.isEmpty
      | _ => false)

/-- One iteration of the `ensure_node_operations` loop over the flow
document's `nodes` map: look up the node's entry, then the config object under
the component name, and backfill `operation`/`op` via `entry().or_insert` when
no explicit operation is present. -/
def ensure_one_node (parse : String → Option Json)
    (m : List (String × Json)) (node : ResolvedNode) :
    Except String (List (String × Json)) :=
  match lookupField m node.node_id with
  | some (.obj entryFields) =>
    match lookupField entryFields node.component.name with
    | some (.obj cfg) =>
      if has_explicit_op cfg then .ok m
      else
        match default_operation parse node.component with
        | .error e => .error e
        | .ok none => .ok m
        | .ok (some op) =>
          let cfg' := orInsertField (orInsertField cfg "operation" (.str op)) "op" (.str op)
          .ok (setField m node.node_id
            (.obj (setField entryFields node.component.name (.obj cfg'))))
    | _ => .ok m
  | _ => .ok m

/-- `ensure_node_operations` from `pack_build.rs`: rewrite the flow document's
`nodes` object (left unchanged when absent or not an object). -/
def ensure_node_operations (parse : String → Option Json) (flow : Json)
    (nodes : List ResolvedNode) : Except String Json :=
  match flow with
  | .obj fields =>
    match lookupField fields "nodes" with
    | some (.obj nodesMap) =>
      (List.foldlM (ensure_one_node parse) nodesMap nodes).map
        (fun m => .obj (setField fields "nodes" (.obj m)))
    | _ => .ok flow
  | _ => .ok flow

/-- `greentic_pack::builder::ComponentArtifact` (fields as filled in by
`to_artifact`). -/
structure ComponentArtifact where
  name : String
  version : String
  wasm_path : String
  schema_json : Option String
  manifest_json : Option String
  capabilities : Option String
  world : Option String
  hash_blake3 : Option String
  deriving DecidableEq

/-- `to_artifact` from `pack_build.rs`, with `strip_prefix("blake3:")` spelled
out on the hash. -/
def to_artifact (c : ResolvedComponent) : ComponentArtifact :=
  { name := c.name
    version := c.version
    wasm_path := c.wasm_path
    schema_json := c.schema_json
    manifest_json := c.manifest_json
    capabilities := c.capabilities_json
    world := some c.world
    hash_blake3 := some (if str_starts_with c.wasm_hash "blake3:"
      then (c.wasm_hash.drop "blake3:".length) else c.wasm_hash) }

/-- The `name@version` key used by `collect_component_artifacts`. -/
def artifact_key (c : ResolvedComponent) : String :=
  c.name ++ "@" ++ c.version

/-- The same key computed from an artifact (`to_artifact` keeps both parts). -/
def artifact_key_of (a : ComponentArtifact) : String :=
  a.name ++ "@" ++ a.version

/-- The contents of the `HashMap` built by `collect_component_artifacts`:
the loop over `nodes` inserts `to_artifact` under the `name@version` key via
`entry().or_insert_with`, so each key keeps its first-seen artifact.  The
association list records the map's entries in first-insertion order. -/
def collect_entries (acc : List (String × ComponentArtifact)) :
    List ResolvedNode → List (String × ComponentArtifact)
  | [] => acc
  | n :: rest =>
    let key := artifact_key n.component
    let acc' := if acc.any (fun kv => kv.1 = key) then acc
      else acc ++ [(key, to_artifact n.component)]
    collect_entries acc' rest

/-- `collect_component_artifacts` returns `map.into_values().collect()`.
`std::collections::HashMap` iteration order is unspecified (seeded per map
instance), so the function's possible return values are exactly the
permutations of the map's values: this predicate characterises them. -/
def IsCollectResult (nodes : List ResolvedNode) (out : List ComponentArtifact) : Prop :=
  out.Perm ((collect_entries [] nodes).map Prod.snd)

/-- `split_once('@')` from Rust: split at the first `@`, when present. -/
def split_once_at (raw : String) : Option (String × String) :=
  (split_once_char (Char.ofNat 64) raw.data).map
    (fun p => (String.mk p.1, String.mk p.2))

/-- `parse_component_ref` from `pack_build.rs`.  `parseVersionReq` models
`semver::VersionReq::parse` (`none` = parse error); `VersionReq::default()` is
modelled by its display string `*`. -/
def parse_component_ref (parseVersionReq : String → Option String) (raw : String) :
    Except String (String × String) :=
  match split_once_at raw with
  | some (name, ver) =>
    match parseVersionReq (str_trim ver) with
    | none => .error ("invalid version requirement `" ++ ver ++ "`")
    | some vr => .ok (str_trim name, vr)
  | none => .ok (str_trim raw, "*")

/-- `resolve_component_exec_node` from `pack_build.rs`.  `resolveComponent`
models `ComponentResolver::resolve_component` (name, version requirement). -/
def resolve_component_exec_node
    (resolveComponent : String → String → Except String ResolvedComponent)
    (parseVersionReq : String → Option String)
    (node : NodeRef) (flowDoc : Json) : Except String (Option ResolvedNode) :=
  match (flowDoc.get "nodes").bind Json.asObj with
  | none => .error "flow document missing nodes map"
  | some nodes =>
    match lookupField nodes node.node_id with
    | none => .error ("node " ++ node.node_id ++ " missing from flow document")
    | some node_value =>
      match node_value.get "component.exec" with
      | none => .error ("component.exec payload missing for node " ++ node.node_id)
      | some payload =>
        match (payload.get "component").bind Json.asStr with
        | none => .error ("component.exec requires `component` for node " ++ node.node_id)
        | some component_ref =>
          match parse_component_ref parseVersionReq component_ref with
          | .error e => .error e
          | .ok (name, version_req) =>
            (resolveComponent name version_req).map (fun c =>
              some { node_id := node.node_id
                     component := c
                     pointer := "/nodes/" ++ node.node_id
                     config := payload })

/-- The line `report_schema_errors` pushes for one error. -/
def schema_error_line (err : NodeSchemaError) : String :=
  "- node `" ++ err.node_id ++ "` (" ++ err.component ++ ") " ++ err.pointer
    ++ ": " ++ err.message ++ "\n"

/-- The `message` accumulator of `report_schema_errors`: one pushed line per
error, in order. -/
def schema_error_message (errors : List NodeSchemaError) : String :=
  errors.foldl (fun acc err => acc ++ schema_error_line err) ""

/-- `report_schema_errors` from `pack_build.rs` always bails; this is the
string carried by the resulting error. -/
def report_schema_errors_text (errors : List NodeSchemaError) : String :=
  "component schema validation failed:\n" ++ schema_error_message errors

/-- `ImportToml` from `pack_build.rs`. -/
structure ImportToml where
  pack_id : String
  version_req : String
  deriving DecidableEq

/-- `greentic_pack::builder::ImportRef` as filled by `load_pack_meta`. -/
structure ImportRef where
  pack_id : String
  version_req : String
  deriving DecidableEq

/-- `PackMetaToml` from `pack_build.rs`: the optional TOML descriptor.  The
externally defined section types (`PackKind`, `EventsSection`,
`RepoPackSection`, `MessagingSection`, `InterfaceBinding`,
`DistributionSection`, `ComponentDescriptor`) are passed through untouched by
`load_pack_meta`, so they are modelled as abstract `String` payloads; the
`annotations` TOML table is modelled by its JSON image (the external
`toml`-to-JSON conversion of `toml_to_json_map` is elided). -/
structure PackMetaToml where
  pack_version : Option Nat
  pack_id : Option String
  version : Option String
  name : Option String
  kind : Option String
  description : Option String
  authors : Option (List String)
  license : Option String
  homepage : Option String
  support : Option String
  vendor : Option String
  entry_flows : Option (List String)
  events : Option String
  repo : Option String
  messaging : Option String
  interfaces : Option (List String)
  imports : Option (List ImportToml)
  annotations : Option (List (String × Json))
  created_at_utc : Option String
  distribution : Option String
  components : Option (List String)

/-- `PackMetaToml::default()`: every field absent. -/
def PackMetaToml.default : PackMetaToml :=
  { pack_version := none, pack_id := none, version := none, name := none
    kind := none, description := none, authors := none, license := none
    homepage := none, support := none, vendor := none, entry_flows := none
    events := none, repo := none, messaging := none, interfaces := none
    imports := none, annotations := none, created_at_utc := none
    distribution := none, components := none }

/-- `greentic_pack::builder::PackMeta` (same field modelling as
`PackMetaToml`). -/
structure PackMeta where
  pack_version : Nat
  pack_id : String
  version : String
  name : String
  description : Option String
  authors : List String
  license : Option String
  homepage : Option String
  support : Option String
  vendor : Option String
  imports : List ImportRef
  kind : Option String
  entry_flows : List String
  created_at_utc : String
  events : Option String
  repo : Option String
  messaging : Option String
  interfaces : List String
  annotations : List (String × Json)
  distribution : Option String
  components : List String

/-- `load_pack_meta` from `pack_build.rs`.  The filesystem read and TOML parse
of the descriptor file are external, so the function receives the decoded
descriptor (`none` when no `--meta` path was given); `parseVersion` models
`semver::Version` parsing by display string (`none` = parse error);
`packVersionDefault` models the external `PACK_VERSION` constant; `now` is the
RFC3339 rendering of `OffsetDateTime::now_utc()` at the call. -/
def load_pack_meta (parseVersion : String → Option String) (packVersionDefault : Nat)
    (descriptor : Option PackMetaToml) (bundle : Bundle) (now : String) :
    Except String PackMeta :=
  let config := descriptor.getD PackMetaToml.default
  match parseVersion (config.version.getD "0.1.0") with
  | none => .error "invalid pack version in metadata"
  | some version =>
    .ok { pack_version := config.pack_version.getD packVersionDefault
          pack_id := config.pack_id.getD ("dev.local." ++ bundle.id)
          version := version
          name := config.name.getD bundle.id
          description := config.description
          authors := config.authors.getD []
          license := config.license
          homepage := config.homepage
          support := config.support
          vendor := config.vendor
          imports := (config.imports.getD []).map
            (fun imp => { pack_id := imp.pack_id, version_req := imp.version_req })
          kind := config.kind
          entry_flows := config.entry_flows.getD [bundle.id]
          created_at_utc := config.created_at_utc.getD now
          events := config.events
          repo := config.repo
          messaging := config.messaging
          interfaces := config.interfaces.getD []
          annotations := config.annotations.getD []
          distribution := config.distribution
          components := config.components.getD [] }

/-- The ambient process environment read by one build run: the wall clock
(rendered RFC3339), the `HOSTNAME` variable, the results of the two `git`
subprocesses, and the compiled-in crate version. -/
structure Ambient where
  now_rfc3339 : String
  hostname : Option String
  git_rev : Option String
  git_remote : Option String
  cargo_pkg_version : String
  deriving DecidableEq

/-- `greentic_pack::builder::Provenance` as filled by `build_provenance`. -/
structure Provenance where
  builder : String
  git_commit : Option String
  git_repo : Option String
  toolchain : Option String
  built_at_utc : String
  host : Option String
  notes : Option String
  deriving DecidableEq

/-- `build_provenance` from `pack_build.rs` (the RFC3339 formatting of the
clock reading is modelled by the pre-rendered `Ambient.now_rfc3339`). -/
def build_provenance (amb : Ambient) : Provenance :=
  { builder := "greentic-dev " ++ amb.cargo_pkg_version
    git_commit := amb.git_rev
    git_repo := amb.git_remote
    toolchain := none
    built_at_utc := amb.now_rfc3339
    host := amb.hostname
    notes := some "Built via greentic-dev pack build" }

/-- Modelled from the spec: `ComponentResolver::resolve_node`
(`component_resolver.rs` is not under `src/`).  Per spec §4.2 and §3 it
resolves the `NodeRef`'s own pinned name and version requirement through the
Component Resolver, fails when the referenced node id is absent from the flow
document, and records the node's literal configuration payload (the value
stored under the component's name inside the node's entry, as
`ensure_node_operations` and §4.4 read it) together with the `/nodes/<id>`
pointer used by the sibling `resolve_component_exec_node`. -/
def resolve_node (resolveComponent : String → String → Except String ResolvedComponent)
    (node : NodeRef) (flowDoc : Json) : Except String ResolvedNode :=
  match (flowDoc.get "nodes").bind Json.asObj with
  | none => .error "flow document missing nodes map"
  | some nodes =>
    match lookupField nodes node.node_id with
    | none => .error ("node " ++ node.node_id ++ " missing from flow document")
    | some node_value =>
      (resolveComponent node.name node.version_req).map (fun c =>
        { node_id := node.node_id
          component := c
          pointer := "/nodes/" ++ node.node_id
          config := (node_value.get c.name).getD Json.null })

/-- `PackSigning` from `pack_build.rs`. -/
inductive PackSigning where
  | dev
  | nosig
  deriving DecidableEq

/-- Everything `builder.build(output_path)` receives in `build_once`: the
metadata, the flow bundle parts (normalized document, original YAML, validated
bundle), the signing mode, the provenance record, and the artifact list.  The
external `to_pack_flow_bundle` canonicalization/hashing and the
`PackBuilder` archive writer consume exactly these values. -/
structure AssembleInput where
  meta : PackMeta
  flow_doc : Json
  flow_yaml : String
  bundle : Bundle
  signing : PackSigning
  prov : Provenance
  artifacts : List ComponentArtifact

/-- Observable side effects of one `build_once` run, in program order. -/
inductive BuildEvent where
  | validateNode (node_id : String)
  | normalizeConfigs
  | writeDiagnostics (path : String) (contents : Json)
  | writeArchive (path : String) (input : AssembleInput)

/-- The external collaborators of `build_once`, as one record:
`serde_json::from_str`, the two semver parsers, the `PACK_VERSION` constant,
the Component Resolver's lookup, the schema validator
(modelled from the spec §4.4 contract `validate(node) -> Vec<NodeSchemaError>`,
`component_resolver.rs` being absent from `src/`), the order in which
`HashMap::into_values` emits the artifact map's entries (unspecified by the
standard library, hence a parameter), and the archive assembler
(`PackBuilder::build`), whose success value is the built archive's bytes. -/
structure BuildEnv where
  parse : String → Option Json
  parseVersionReq : String → Option String
  parseVersion : String → Option String
  packVersionDefault : Nat
  resolveComponent : String → String → Except String ResolvedComponent
  validate : ResolvedNode → List NodeSchemaError
  intoValues : List (String × ComponentArtifact) → List ComponentArtifact
  assemble : AssembleInput → Except String String

/-- The logical inputs of one `build_once` run.  The flow file read, the YAML
parse (`serde_yaml_bw::from_str`) and the external
`load_and_validate_bundle` are outside this core, so the run receives the raw
source together with their decoded results, and the decoded TOML descriptor. -/
structure BuildInput where
  flow_source : String
  flowDoc : Json
  bundle : Bundle
  descriptor : Option PackMetaToml
  output_path : String
  signing : PackSigning
  ambient : Ambient

/-- The resolution loop of `build_once` (source lines 106–120): skip
built-ins, resolve `component.exec` nodes through
`resolve_component_exec_node`, resolve external nodes through `resolve_node`,
validate each resolved node as it is produced, and aggregate every node's
schema errors in node order. -/
def build_loop (env : BuildEnv) (flowDoc : Json) :
    List NodeRef → Except String (List ResolvedNode × List NodeSchemaError × List BuildEvent)
  | [] => .ok ([], [], [])
  | node :: rest =>
    if is_builtin_component node.name then
      if node.name == "component.exec" then
        match resolve_component_exec_node env.resolveComponent env.parseVersionReq node flowDoc with
        | .error e => .error e
        | .ok none => build_loop env flowDoc rest
        | .ok (some exec_node) =>
          match build_loop env flowDoc rest with
          | .error e => .error e
          | .ok (rs, es, evs) =>
            .ok (exec_node :: rs, env.validate exec_node ++ es,
              .validateNode node.node_id :: evs)
      else build_loop env flowDoc rest
    else
      match resolve_node env.resolveComponent node flowDoc with
      | .error e => .error e
      | .ok resolved =>
        match build_loop env flowDoc rest with
        | .error e => .error e
        | .ok (rs, es, evs) =>
          .ok (resolved :: rs, env.validate resolved ++ es,
            .validateNode node.node_id :: evs)

/-- The diagnostics path `write_resolved_configs` uses for one node. -/
def resolved_config_path (node : ResolvedNode) : String :=
  ".greentic/resolved_config/" ++ node.node_id ++ ".json"

/-- The JSON document `write_resolved_configs` serializes for one node. -/
def resolved_config_json (node : ResolvedNode) : Json :=
  .obj [("node_id", .str node.node_id),
        ("component", .str node.component.name),
        ("version", .str node.component.version),
        ("config", node.config)]

/-- `write_resolved_configs` from `pack_build.rs` as its trace of file
writes, one per resolved node in order. -/
def write_resolved_configs_events (nodes : List ResolvedNode) : List BuildEvent :=
  nodes.map (fun n => .writeDiagnostics (resolved_config_path n) (resolved_config_json n))

/-- Everything `build_once` hands to the external assembler on success: the
loaded metadata, the normalized flow document, the original YAML, the
bundle, the signing mode, the provenance record, and the collected
artifacts. -/
def mk_assemble_input (env : BuildEnv) (inp : BuildInput)
    (resolved : List ResolvedNode) (flow_doc' : Json) (meta : PackMeta) :
    AssembleInput :=
  { meta := meta
    flow_doc := flow_doc'
    flow_yaml := inp.flow_source
    bundle := inp.bundle
    signing := inp.signing
    prov := build_provenance inp.ambient
    artifacts := env.intoValues (collect_entries [] resolved) }

/-- `build_once` from `pack_build.rs`, from the resolution loop to the
archive write: aggregate schema errors and bail via `report_schema_errors`
when any exist, otherwise backfill default operations into the flow document,
write the per-node diagnostics snapshots, load the pack metadata, and hand the
bundle, provenance and collected artifacts to the archive assembler.  Returns
the build result together with the trace of observable side effects (the
archive-write event is recorded only when the external assembler succeeds:
per spec §5 the archive write is all-or-nothing). -/
def build_once (env : BuildEnv) (inp : BuildInput) :
    Except String String × List BuildEvent :=
  match build_loop env inp.flowDoc inp.bundle.nodes with
  | .error e => (.error e, [])
  | .ok (resolved, schema_errors, evs) =>
    if schema_errors.isEmpty then
      match ensure_node_operations env.parse inp.flowDoc resolved with
      | .error e => (.error e, evs)
      | .ok flow_doc' =>
        let evs2 := evs ++ [.normalizeConfigs] ++ write_resolved_configs_events resolved
        match load_pack_meta env.parseVersion env.packVersionDefault inp.descriptor
            inp.bundle inp.ambient.now_rfc3339 with
        | .error e => (.error e, evs2)
        | .ok meta =>
          match env.assemble (mk_assemble_input env inp resolved flow_doc' meta) with
          | .error e => (.error e, evs2)
          | .ok out =>
            (.ok out, evs2 ++ [.writeArchive inp.output_path
              (mk_assemble_input env inp resolved flow_doc' meta)])
    else
      (.error (report_schema_errors_text schema_errors), evs)

/-- A filesystem path: absolute flag plus the list of components
(`std::path::PathBuf`). -/
structure PathM where
  absolute : Bool
  comps : List String
  deriving DecidableEq

/-- `Path::join` for a relative right operand (the only way `path_safety.rs`
uses it, having branched on `candidate.is_absolute()` first). -/
def path_join (root p : PathM) : PathM :=
  { absolute := root.absolute, comps := root.comps ++ p.comps }

/-- `Path::starts_with`: component-wise prefix with matching absoluteness. -/
def path_starts_with (p r : PathM) : Bool :=
  (p.absolute == r.absolute) && r.comps.isPrefixOf p.comps

/-- `normalize_under_root` from `path_safety.rs`.  `canonicalize` models
`std::fs::canonicalize` (filesystem-dependent symlink and `..` resolution;
`none` = I/O error). -/
def normalize_under_root (canonicalize : PathM → Option PathM)
    (root candidate : PathM) : Except String PathM :=
  let resolved := if candidate.absolute then candidate else path_join root candidate
  match canonicalize resolved with
  | none => .error "failed to canonicalize"
  | some canon =>
    if path_starts_with canon root then .ok canon
    else .error "path escapes root"

/-- The `meta_path.map(...).transpose()?` pattern of `run`. -/
def normalize_under_root_opt (canonicalize : PathM → Option PathM)
    (root : PathM) : Option PathM → Except String (Option PathM)
  | none => .ok none
  | some p => (normalize_under_root canonicalize root p).map some

/-- The path prologue of `run` in `pack_build.rs` (source lines 52–62): the
flow path, the optional metadata path and the optional component directory are
each normalized under the canonicalized workspace root before `build_once`
reads them. -/
def run_safe_inputs (canonicalize : PathM → Option PathM)
    (workspace_root flow_path : PathM) (meta_path component_dir : Option PathM) :
    Except String (PathM × Option PathM × Option PathM) :=
  match normalize_under_root canonicalize workspace_root flow_path with
  | .error e => .error e
  | .ok safe_flow =>
    match normalize_under_root_opt canonicalize workspace_root meta_path with
    | .error e => .error e
    | .ok safe_meta =>
      match normalize_under_root_opt canonicalize workspace_root component_dir with
      | .error e => .error e
      | .ok safe_component_dir => .ok (safe_flow, safe_meta, safe_component_dir)

/-! ## Concrete fixtures used by witnesses and counterexamples -/

/-- A minimal resolved component used by concrete scenarios: `name@version`
with placeholder artifact path, hash and world. -/
def mkComponent (n v : String) : ResolvedComponent :=
  { name := n
    version := v
    wasm_path := "p"
    wasm_hash := "h"
    manifest_json := none
    schema_json := none
    capabilities_json := none
    world := "w" }

/-- A component-resolver stub that always succeeds with `mkComponent`. -/
def resolveAlways : String → String → Except String ResolvedComponent :=
  fun n v => .ok (mkComponent n v)

/-- A `NodeRef` pinning `component.exec` for a given node id. -/
def execNodeRef (nid : String) : NodeRef :=
  { node_id := nid
    name := "component.exec"
    version_req := "*"
    schema_id := none }

/-- The flow document of the C8 scenarios: node `x1` has an empty exec
payload, node `x2` pins `echo@1.2.3`. -/
def flowDocX : Json :=
  .obj [("nodes", .obj
    [("x1", .obj [("component.exec", .obj [])]),
     ("x2", .obj [("component.exec", .obj [("component", .str "echo@1.2.3")])])])]

/-- The manifest JSON of the `echo` component with object-shaped operations
(the shape `default_operation` reads). -/
def manifestEchoObj : String :=
  "\x7b\"operations\":[\x7b\"name\":\"echo\"\x7d,\x7b\"name\":\"reverse\"\x7d]\x7d"

/-- `serde_json::from_str` restricted to `manifestEchoObj`. -/
def parseEchoObj : String → Option Json := fun s =>
  if s = manifestEchoObj then
    some (.obj [("operations",
      .arr [.obj [("name", .str "echo")], .obj [("name", .str "reverse")]])])
  else none

/-- The `echo@1.0.0` component carrying `manifestEchoObj`. -/
def echoComponent : ResolvedComponent :=
  { mkComponent "echo" "1.0.0" with manifest_json := some manifestEchoObj }

/-- A resolved node for `n1` backed by `echoComponent`, with empty config. -/
def nodeEcho : ResolvedNode :=
  { node_id := "n1"
    component := echoComponent
    pointer := "/nodes/n1"
    config := Json.obj [] }

/-- The flow document's `nodes` map: `n1` holds an empty `echo` config. -/
def nodesMapEcho : List (String × Json) := [("n1", .obj [("echo", .obj [])])]

/-- The manifest JSON literally from the spec's example: operations as an
array of strings. -/
def manifestEchoStrArr : String := "\x7b\"operations\":[\"echo\",\"reverse\"]\x7d"

/-- `serde_json::from_str` restricted to `manifestEchoStrArr`. -/
def parseEchoStrArr : String → Option Json := fun s =>
  if s = manifestEchoStrArr then
    some (.obj [("operations", .arr [.str "echo", .str "reverse"])])
  else none

/-- The `echo@1.0.0` component carrying the string-array manifest. -/
def echoComponentStrArr : ResolvedComponent :=
  { mkComponent "echo" "1.0.0" with manifest_json := some manifestEchoStrArr }

/-- `nodeEcho` backed by the string-array manifest component. -/
def nodeEchoStrArr : ResolvedNode :=
  { nodeEcho with component := echoComponentStrArr }

/-- External node `a1` backed by `alpha@1.0.0`. -/
def nodeAlpha : ResolvedNode :=
  { node_id := "a1"
    component := mkComponent "alpha" "1.0.0"
    pointer := "/nodes/a1"
    config := Json.obj [] }

/-- External node `b1` backed by `beta@1.0.0`. -/
def nodeBeta : ResolvedNode :=
  { node_id := "b1"
    component := mkComponent "beta" "1.0.0"
    pointer := "/nodes/b1"
    config := Json.obj [] }

/-- A second node referencing `alpha@1.0.0` again (same key as `nodeAlpha`). -/
def nodeAlpha2 : ResolvedNode :=
  { nodeAlpha with node_id := "a2", pointer := "/nodes/a2" }

/-- The artifact of `alpha@1.0.0`. -/
def artAlpha : ComponentArtifact := to_artifact (mkComponent "alpha" "1.0.0")

/-- The artifact of `beta@1.0.0`. -/
def artBeta : ComponentArtifact := to_artifact (mkComponent "beta" "1.0.0")


/-- Is this event a `validate_node` call? -/
def BuildEvent.isValidate : BuildEvent → Bool
  | .validateNode _ => true
  | _ => false

/-- Is this event the archive write? -/
def BuildEvent.isArchiveWrite : BuildEvent → Bool
  | .writeArchive _ _ => true
  | _ => false

/-- Is this event a diagnostics-file write? -/
def BuildEvent.isDiagWrite : BuildEvent → Bool
  | .writeDiagnostics _ _ => true
  | _ => false

/-- Scan of a trace checking that no validation event occurs once a
normalization event has been seen (`seen` = a normalization event was
passed). -/
def validation_precedes_normalization_aux (seen : Bool) : List BuildEvent → Bool
  | [] => true
  | .validateNode _ :: rest => !seen && validation_precedes_normalization_aux seen rest
  | .normalizeConfigs :: rest => validation_precedes_normalization_aux true rest
  | _ :: rest => validation_precedes_normalization_aux seen rest

/-- Every schema-validation event of the trace precedes the config
normalization. -/
def validation_precedes_normalization (evs : List BuildEvent) : Bool :=
  validation_precedes_normalization_aux false evs

/-- Scan of a trace checking the order claimed by spec §2: every validation
event occurs after a normalization event. -/
def normalization_precedes_validation_aux (seen : Bool) : List BuildEvent → Bool
  | [] => true
  | .validateNode _ :: rest => seen && normalization_precedes_validation_aux seen rest
  | .normalizeConfigs :: rest => normalization_precedes_validation_aux true rest
  | _ :: rest => normalization_precedes_validation_aux seen rest

/-- Every schema-validation event of the trace follows the config
normalization (the spec §2 pipeline order). -/
def normalization_precedes_validation (evs : List BuildEvent) : Bool :=
  normalization_precedes_validation_aux false evs

/-- The flow document of the single-node pipeline scenarios: one external
node `n1` with an empty `echo` config. -/
def flowDocN1 : Json := .obj [("nodes", .obj [("n1", .obj [("echo", .obj [])])])]

/-- The validated bundle for `flowDocN1`. -/
def bundleN1 : Bundle :=
  { id := "wf"
    nodes := [{ node_id := "n1", name := "echo", version_req := "1.0.0", schema_id := none }] }

/-- A component search path holding exactly `echoComponent`. -/
def resolveEcho : String → String → Except String ResolvedComponent :=
  fun _ _ => .ok echoComponent

/-- An ambient environment reading. -/
def ambient0 : Ambient :=
  { now_rfc3339 := "2024-01-01T00:00:00Z"
    hostname := some "host"
    git_rev := none
    git_remote := none
    cargo_pkg_version := "0.4.0" }

/-- The same ambient environment, with the clock read seven seconds later. -/
def ambient7 : Ambient := { ambient0 with now_rfc3339 := "2024-01-01T00:00:07Z" }

/-- A build environment whose schema validator reports one violation per
node. -/
def envReject : BuildEnv :=
  { parse := parseEchoObj
    parseVersionReq := fun s => some s
    parseVersion := fun s => some s
    packVersionDefault := 1
    resolveComponent := resolveEcho
    validate := fun n =>
      [{ node_id := n.node_id
         component := n.component.name
         pointer := n.pointer
         message := "missing required property" }]
    intoValues := fun l => l.map Prod.snd
    assemble := fun _ => .ok "archive" }

/-- A build environment whose schema validator accepts every node. -/
def envAccept : BuildEnv := { envReject with validate := fun _ => [] }

/-- `envAccept` with an assembler that serializes the metadata's creation
time and the provenance's build time into the archive bytes (a behaviour the
external assembler's §6 interface permits, since it receives both). -/
def envStamp : BuildEnv :=
  { envAccept with
      assemble := fun i => .ok (i.meta.created_at_utc ++ "|" ++ i.prov.built_at_utc) }

/-- `envStamp` with a different artifact-order draw: this run's
`HashMap::into_values` emits the map's values in reverse insertion order
(still a permutation of the values, as the map contract guarantees, but a
different order than `envStamp`'s draw). -/
def envStampRev : BuildEnv :=
  { envStamp with intoValues := fun l => (l.map Prod.snd).reverse }

/-- The build input for the `n1` flow at a given ambient reading. -/
def inputN1 (amb : Ambient) : BuildInput :=
  { flow_source := "id: wf\n"
    flowDoc := flowDocN1
    bundle := bundleN1
    descriptor := none
    output_path := "dist/wf.gtpack"
    signing := .dev
    ambient := amb }

/-- The resolved `n1` node the pipeline scenarios produce. -/
def resolvedEchoN1 : ResolvedNode :=
  { node_id := "n1"
    component := echoComponent
    pointer := "/nodes/n1"
    config := Json.obj [] }

/-- The schema error `envReject` reports for `n1`. -/
def schemaErrN1 : NodeSchemaError :=
  { node_id := "n1"
    component := "echo"
    pointer := "/nodes/n1"
    message := "missing required property" }

/-- `flowDocN1` after operation backfill. -/
def flowDocN1Final : Json :=
  .obj [("nodes", .obj [("n1", .obj [("echo",
    .obj [("operation", .str "echo"), ("op", .str "echo")])])])]

/-! ## Lemmas about JSON object updates -/

theorem lookupField_orInsertField_same (fields : List (String × Json)) (k : String) (v : Json) :
    lookupField (orInsertField fields k v) k = some ((lookupField fields k).getD v) := by
  induction fields with
  | nil => simp [orInsertField, lookupField]
  | cons kv rest ih =>
    obtain ⟨k', v'⟩ := kv
    by_cases h : k' = k
    · simp [orInsertField, lookupField, h]
    · simp [orInsertField, lookupField, h, ih]

theorem lookupField_orInsertField_ne (fields : List (String × Json)) (k : String)
    (v : Json) (k' : String) (h : k' ≠ k) :
    lookupField (orInsertField fields k v) k' = lookupField fields k' := by
  induction fields with
  | nil => simp [orInsertField, lookupField, Ne.symm h]
  | cons kv rest ih =>
    obtain ⟨k₀, v₀⟩ := kv
    by_cases h0 : k₀ = k
    · simp [orInsertField, lookupField, h0]
    · by_cases h1 : k₀ = k'
      · simp [orInsertField, lookupField, h0, h1, h]
      · simp [orInsertField, lookupField, h0, h1, h, ih]

/-! ## C9: default pack id and version -/

/-- C9: for every build with no metadata descriptor, or a descriptor omitting
`pack_id` and `version`, the synthesized pack metadata has pack id
`dev.local.<flow id>` and version `0.1.0` (given that the semver parser
accepts `0.1.0`, as `semver::Version::parse` does). -/
theorem load_pack_meta_default_id_and_version
    (parseVersion : String → Option String) (d : Nat) (bundle : Bundle) (now : String)
    (descriptor : Option PackMetaToml)
    (hdesc : descriptor = none ∨
      ∃ cfg, descriptor = some cfg ∧ cfg.pack_id = none ∧ cfg.version = none)
    (hv : parseVersion "0.1.0" = some "0.1.0") :
    (load_pack_meta parseVersion d descriptor bundle now).map PackMeta.pack_id
        = .ok ("dev.local." ++ bundle.id) ∧
    (load_pack_meta parseVersion d descriptor bundle now).map PackMeta.version
        = .ok "0.1.0" := by
  rcases hdesc with h | ⟨cfg, h, hp, hvv⟩
  · subst h
    simp [load_pack_meta, PackMetaToml.default, hv, Option.getD, Except.map]
  · subst h
    simp [load_pack_meta, hp, hvv, hv, Option.getD, Except.map]

/-- Witness for C9 at a concrete flow id with the identity version parser. -/
theorem load_pack_meta_default_id_and_version_witness :
    (load_pack_meta (fun s => some s) 1 none { id := "weather", nodes := [] } "now").map
        PackMeta.pack_id = .ok "dev.local.weather" ∧
    (load_pack_meta (fun s => some s) 1 none { id := "weather", nodes := [] } "now").map
        PackMeta.version = .ok "0.1.0" :=
  load_pack_meta_default_id_and_version (fun s => some s) 1
    { id := "weather", nodes := [] } "now" none (Or.inl rfl) rfl

/-! ## C10: path confinement -/

theorem normalize_under_root_ok (canonicalize : PathM → Option PathM)
    (root candidate p : PathM)
    (h : normalize_under_root canonicalize root candidate = .ok p) :
    path_starts_with p root = true ∧ (∃ resolved, canonicalize resolved = some p) := by
  simp only [normalize_under_root] at h
  rcases hc : canonicalize (if candidate.absolute then candidate
      else path_join root candidate) with _ | canon
  · rw [hc] at h; exact absurd h (by simp)
  · rw [hc] at h
    dsimp only at h
    by_cases hs : path_starts_with canon root = true
    · rw [if_pos hs] at h
      simp only [Except.ok.injEq] at h
      subst h
      exact ⟨hs, _, hc⟩
    · rw [if_neg hs] at h
      exact absurd h (by simp)

theorem normalize_under_root_opt_ok (canonicalize : PathM → Option PathM)
    (root : PathM) (o so : Option PathM)
    (h : normalize_under_root_opt canonicalize root o = .ok so) :
    ∀ q, so = some q → path_starts_with q root = true := by
  intro q hq
  cases o with
  | none =>
    simp only [normalize_under_root_opt] at h
    simp only [Except.ok.injEq] at h
    subst h
    exact absurd hq (by simp)
  | some mp =>
    simp only [normalize_under_root_opt] at h
    rcases hn : normalize_under_root canonicalize root mp with e | r
    · rw [hn] at h; exact absurd h (by simp [Except.map])
    · rw [hn] at h
      simp only [Except.map, Except.ok.injEq] at h
      subst h
      simp only [Option.some.injEq] at hq
      subst hq
      exact (normalize_under_root_ok canonicalize root mp r hn).1

/-- C10: `normalize_under_root` either fails or returns a canonicalized path
that starts with the root, and hence every flow path, metadata path, and
component directory that `run` forwards to `build_once` is confined under the
workspace root. -/
theorem normalize_under_root_confines (canonicalize : PathM → Option PathM)
    (root candidate p : PathM) (flow_path : PathM)
    (meta_path component_dir : Option PathM)
    (sf : PathM) (sm sc : Option PathM)
    (h : normalize_under_root canonicalize root candidate = .ok p)
    (hrun : run_safe_inputs canonicalize root flow_path meta_path component_dir
      = .ok (sf, sm, sc)) :
    path_starts_with p root = true ∧
    (∃ resolved, canonicalize resolved = some p) ∧
    path_starts_with sf root = true ∧
    (∀ q, sm = some q → path_starts_with q root = true) ∧
    (∀ q, sc = some q → path_starts_with q root = true) := by
  obtain ⟨h1, h2⟩ := normalize_under_root_ok canonicalize root candidate p h
  refine ⟨h1, h2, ?_⟩
  unfold run_safe_inputs at hrun
  rcases hf : normalize_under_root canonicalize root flow_path with e | pf
  · rw [hf] at hrun; exact absurd hrun (by simp)
  rw [hf] at hrun
  rcases hm : normalize_under_root_opt canonicalize root meta_path with e | pm
  · rw [hm] at hrun; exact absurd hrun (by simp)
  rw [hm] at hrun
  rcases hcd : normalize_under_root_opt canonicalize root component_dir with e | pc
  · rw [hcd] at hrun; exact absurd hrun (by simp)
  rw [hcd] at hrun
  simp only [Except.ok.injEq, Prod.mk.injEq] at hrun
  obtain ⟨hsf, hsm, hsc⟩ := hrun
  subst hsf; subst hsm; subst hsc
  exact ⟨(normalize_under_root_ok canonicalize root flow_path pf hf).1,
    normalize_under_root_opt_ok canonicalize root meta_path pm hm,
    normalize_under_root_opt_ok canonicalize root component_dir pc hcd⟩

/-- Witness for C10: identity canonicalizer, root `/root`, relative candidate
`a`, flow `flow.yaml`, no metadata path, component directory `components`. -/
theorem normalize_under_root_confines_witness :
    path_starts_with { absolute := true, comps := ["root", "a"] }
      { absolute := true, comps := ["root"] } = true ∧
    path_starts_with { absolute := true, comps := ["root", "flow.yaml"] }
      { absolute := true, comps := ["root"] } = true :=
  have T := normalize_under_root_confines (fun p => some p)
    { absolute := true, comps := ["root"] } { absolute := false, comps := ["a"] }
    { absolute := true, comps := ["root", "a"] } { absolute := false, comps := ["flow.yaml"] }
    none (some { absolute := false, comps := ["components"] })
    { absolute := true, comps := ["root", "flow.yaml"] }
    none (some { absolute := true, comps := ["root", "components"] })
    (by rfl) (by rfl)
  ⟨T.1, T.2.2.1⟩

/-! ## C8: inline-execution payload resolution -/

/-- C8: for a `component.exec` node whose payload exists but lacks a
`component` field, resolution fails with the missing-exec-payload error
naming that node; a payload carrying a component reference string accepted by
`parse_component_ref` (`name` or `name@version-requirement`) is resolved as an
ordinary external node through the Component Resolver. -/
theorem component_exec_payload_contract
    (resolveComponent : String → String → Except String ResolvedComponent)
    (parseVersionReq : String → Option String)
    (node nodeB : NodeRef) (flowDoc flowDocB : Json)
    (nodesMap nodesMapB : List (String × Json)) (nv nvB payload payloadB : Json)
    (cref name vr : String) (c : ResolvedComponent)
    (h1 : (flowDoc.get "nodes").bind Json.asObj = some nodesMap)
    (h2 : lookupField nodesMap node.node_id = some nv)
    (h3 : nv.get "component.exec" = some payload)
    (h4 : payload.get "component" = none)
    (g1 : (flowDocB.get "nodes").bind Json.asObj = some nodesMapB)
    (g2 : lookupField nodesMapB nodeB.node_id = some nvB)
    (g3 : nvB.get "component.exec" = some payloadB)
    (g4 : payloadB.get "component" = some (.str cref))
    (g5 : parse_component_ref parseVersionReq cref = .ok (name, vr))
    (g6 : resolveComponent name vr = .ok c) :
    resolve_component_exec_node resolveComponent parseVersionReq node flowDoc
      = .error ("component.exec requires `component` for node " ++ node.node_id) ∧
    resolve_component_exec_node resolveComponent parseVersionReq nodeB flowDocB
      = .ok (some { node_id := nodeB.node_id, component := c,
                    pointer := "/nodes/" ++ nodeB.node_id, config := payloadB }) := by
  constructor
  · simp only [resolve_component_exec_node, h1, h2, h3, h4, Option.none_bind]
  · simp only [resolve_component_exec_node, g1, g2, g3, g4, Option.some_bind,
      Json.asStr, g5, g6, Except.map]

/-- Witness for C8: node `x1` (empty exec payload) fails with the
node-specific error, and node `x2` (payload pinning `echo@1.2.3`) resolves to
the external component. -/
theorem component_exec_payload_contract_witness :
    resolve_component_exec_node resolveAlways (fun s => some s) (execNodeRef "x1") flowDocX
      = .error "component.exec requires `component` for node x1" ∧
    resolve_component_exec_node resolveAlways (fun s => some s) (execNodeRef "x2") flowDocX
      = .ok (some
        { node_id := "x2"
          component := mkComponent "echo" "1.2.3"
          pointer := "/nodes/x2"
          config := .obj [("component", .str "echo@1.2.3")] }) :=
  component_exec_payload_contract resolveAlways (fun s => some s)
    (execNodeRef "x1") (execNodeRef "x2") flowDocX flowDocX
    [("x1", .obj [("component.exec", .obj [])]),
     ("x2", .obj [("component.exec", .obj [("component", .str "echo@1.2.3")])])]
    [("x1", .obj [("component.exec", .obj [])]),
     ("x2", .obj [("component.exec", .obj [("component", .str "echo@1.2.3")])])]
    (.obj [("component.exec", .obj [])])
    (.obj [("component.exec", .obj [("component", .str "echo@1.2.3")])])
    (.obj []) (.obj [("component", .str "echo@1.2.3")])
    "echo@1.2.3" "echo" "1.2.3" (mkComponent "echo" "1.2.3")
    (by rfl) (by rfl) (by rfl) (by rfl) (by rfl) (by rfl) (by rfl) (by rfl) (by rfl) (by rfl)

/-! ## C5/C6: default-operation backfill -/

/-- C5: for a node whose entry and configuration object are present in the
flow document: a configuration with a non-blank `operation` or `op` is left
untouched; otherwise, when `default_operation` yields the first declared
operation, it is written under both `operation` and `op` via
`entry().or_insert`, overwriting neither key if it is already set and leaving
every other key unchanged. -/
theorem ensure_one_node_backfill
    (parse : String → Option Json) (m : List (String × Json)) (node : ResolvedNode)
    (entryFields cfg : List (String × Json)) (op : String)
    (hm : lookupField m node.node_id = some (.obj entryFields))
    (hc : lookupField entryFields node.component.name = some (.obj cfg)) :
    (has_explicit_op cfg = true → ensure_one_node parse m node = .ok m) ∧
    (has_explicit_op cfg = false →
      default_operation parse node.component = .ok (some op) →
      (ensure_one_node parse m node =
        .ok (setField m node.node_id (.obj (setField entryFields node.component.name
          (.obj (orInsertField (orInsertField cfg "operation" (.str op)) "op" (.str op)))))) ∧
       lookupField (orInsertField (orInsertField cfg "operation" (.str op)) "op" (.str op))
          "operation" = some ((lookupField cfg "operation").getD (.str op)) ∧
       lookupField (orInsertField (orInsertField cfg "operation" (.str op)) "op" (.str op))
          "op" = some ((lookupField cfg "op").getD (.str op)) ∧
       (∀ k, k ≠ "operation" → k ≠ "op" →
         lookupField (orInsertField (orInsertField cfg "operation" (.str op)) "op" (.str op)) k
           = lookupField cfg k))) := by
  constructor
  · intro hop
    simp only [ensure_one_node, hm, hc, hop, if_true]
  · intro hop hdef
    refine ⟨?_, ?_, ?_, ?_⟩
    · simp only [ensure_one_node, hm, hc, hop, hdef, Bool.false_eq_true, if_false]
    · rw [lookupField_orInsertField_ne _ "op" _ "operation" (by decide)]
      exact lookupField_orInsertField_same cfg "operation" (.str op)
    · rw [lookupField_orInsertField_same,
        lookupField_orInsertField_ne cfg "operation" _ "op" (by decide)]
    · intro k h1 h2
      rw [lookupField_orInsertField_ne _ "op" _ k h2,
        lookupField_orInsertField_ne cfg "operation" _ k h1]

/-- Witness for C5: backfilling the empty `echo` config of `n1` writes
`operation`/`op` from the manifest's first declared operation. -/
theorem ensure_one_node_backfill_witness :
    ensure_one_node parseEchoObj nodesMapEcho nodeEcho =
      .ok (setField nodesMapEcho "n1" (.obj (setField [("echo", Json.obj [])] "echo"
        (.obj (orInsertField (orInsertField [] "operation" (.str "echo")) "op"
          (.str "echo")))))) :=
  ((ensure_one_node_backfill parseEchoObj nodesMapEcho nodeEcho
    [("echo", Json.obj [])] [] "echo" rfl rfl).2 rfl rfl).1

/-- C6 counterexample: with the manifest declaring
`operations: ["echo","reverse"]` as an array of strings (the claim's shape),
`default_operation` looks for a `name` member on the first element, finds
none, and backfills nothing: the node's configuration stays `{}` with neither
`operation` nor `op`. -/
theorem string_operations_array_not_backfilled :
    default_operation parseEchoStrArr echoComponentStrArr = .ok none ∧
    ensure_one_node parseEchoStrArr nodesMapEcho nodeEchoStrArr = .ok nodesMapEcho ∧
    lookupField nodesMapEcho "n1" = some (.obj [("echo", .obj [])]) ∧
    (Json.obj []).get "operation" = none ∧ (Json.obj []).get "op" = none :=
  ⟨rfl, rfl, rfl, rfl, rfl⟩

/-- C6 amended: with the manifest declaring
`operations: [{"name":"echo"},{"name":"reverse"}]` — the object shape whose
first element's `name` the code reads — normalization adds
`operation: "echo"` and `op: "echo"` to the node's empty configuration. -/
theorem first_declared_operation_backfilled :
    ensure_one_node parseEchoObj nodesMapEcho nodeEcho =
      .ok [("n1", .obj [("echo",
        .obj [("operation", .str "echo"), ("op", .str "echo")])])] :=
  rfl

/-! ## C3: artifact deduplication -/

theorem collect_entries_key_eq (nodes : List ResolvedNode) :
    ∀ acc, (∀ kv ∈ acc, kv.1 = artifact_key_of kv.2) →
      ∀ kv ∈ collect_entries acc nodes, kv.1 = artifact_key_of kv.2 := by
  induction nodes with
  | nil => intro acc h kv hm; exact h kv hm
  | cons n rest ih =>
    intro acc h kv hm
    simp only [collect_entries] at hm
    by_cases hk : (acc.any (fun kv => kv.1 = artifact_key n.component)) = true
    · rw [if_pos hk] at hm; exact ih acc h kv hm
    · rw [if_neg hk] at hm
      refine ih _ ?_ kv hm
      intro kv' hkv'
      rcases List.mem_append.mp hkv' with h1 | h2
      · exact h kv' h1
      · simp only [List.mem_singleton] at h2
        subst h2
        rfl

theorem collect_entries_keys_nodup (nodes : List ResolvedNode) :
    ∀ acc, (acc.map Prod.fst).Nodup →
      ((collect_entries acc nodes).map Prod.fst).Nodup := by
  induction nodes with
  | nil => intro acc h; exact h
  | cons n rest ih =>
    intro acc h
    simp only [collect_entries]
    by_cases hk : (acc.any (fun kv => kv.1 = artifact_key n.component)) = true
    · rw [if_pos hk]; exact ih acc h
    · rw [if_neg hk]
      apply ih
      rw [List.map_append, List.nodup_append]
      refine ⟨h, by simp, ?_⟩
      intro x hx hx'
      simp only [List.map_cons, List.map_nil, List.mem_singleton] at hx'
      subst hx'
      rcases List.mem_map.mp hx with ⟨kv, hkv, hfst⟩
      exact hk (List.any_eq_true.mpr ⟨kv, hkv, by simp [hfst]⟩)

theorem collect_entries_length (nodes : List ResolvedNode) :
    ∀ acc, (collect_entries acc nodes).length ≤ acc.length + nodes.length := by
  induction nodes with
  | nil => intro acc; simp [collect_entries]
  | cons n rest ih =>
    intro acc
    simp only [collect_entries, List.length_cons]
    by_cases hk : (acc.any (fun kv => kv.1 = artifact_key n.component)) = true
    · rw [if_pos hk]
      have := ih acc
      omega
    · rw [if_neg hk]
      have := ih (acc ++ [(artifact_key n.component, to_artifact n.component)])
      simp only [List.length_append, List.length_cons, List.length_nil] at this
      omega

/-- C3 amended: every possible return value of `collect_component_artifacts`
(the `HashMap` values in whatever order `into_values` yields them) has no two
entries sharing a `name@version` key and length at most the number of
resolved nodes; its multiset of entries is the first-seen artifact per unique
key. -/
theorem collect_component_artifacts_dedup
    (nodes : List ResolvedNode) (out : List ComponentArtifact)
    (h : IsCollectResult nodes out) :
    (out.map artifact_key_of).Nodup ∧ out.length ≤ nodes.length := by
  have hkeys : ∀ kv ∈ collect_entries [] nodes, kv.1 = artifact_key_of kv.2 :=
    collect_entries_key_eq nodes [] (by simp)
  have hnodup : ((collect_entries [] nodes).map Prod.fst).Nodup :=
    collect_entries_keys_nodup nodes [] (by simp)
  constructor
  · have hperm := h.map artifact_key_of
    rw [List.map_map] at hperm
    have hmapeq : (collect_entries [] nodes).map (artifact_key_of ∘ Prod.snd)
        = (collect_entries [] nodes).map Prod.fst := by
      apply List.map_congr_left
      intro kv hkv
      exact (hkeys kv hkv).symm
    rw [hmapeq] at hperm
    exact hperm.nodup_iff.mpr hnodup
  · have hlen := h.length_eq
    rw [List.length_map] at hlen
    have hle := collect_entries_length nodes []
    simp only [List.length_nil, Nat.zero_add] at hle
    omega

/-- Witness for C3 (amended): three nodes referencing two distinct
components collect to two artifacts with distinct keys. -/
theorem collect_component_artifacts_dedup_witness :
    (([artAlpha, artBeta] : List ComponentArtifact).map artifact_key_of).Nodup ∧
    ([artAlpha, artBeta] : List ComponentArtifact).length
      ≤ ([nodeAlpha, nodeBeta, nodeAlpha2] : List ResolvedNode).length :=
  collect_component_artifacts_dedup [nodeAlpha, nodeBeta, nodeAlpha2]
    [artAlpha, artBeta] (List.Perm.refl _)

/-- C3 counterexample (entry order): the reversed value list is a possible
`into_values` result (`HashMap` iteration order is unspecified), yet it
differs from the first-seen-order list, so the entry order of
`collect_component_artifacts` is not determined by first-seen order. -/
theorem collect_values_order_unspecified :
    IsCollectResult [nodeAlpha, nodeBeta] [artBeta, artAlpha] ∧
    [artBeta, artAlpha] ≠ (collect_entries [] [nodeAlpha, nodeBeta]).map Prod.snd := by
  constructor
  · show List.Perm _ _
    have he : (collect_entries [] [nodeAlpha, nodeBeta]).map Prod.snd
        = [artAlpha, artBeta] := rfl
    rw [he]
    exact List.Perm.swap artAlpha artBeta []
  · intro h
    have he : (collect_entries [] [nodeAlpha, nodeBeta]).map Prod.snd
        = [artAlpha, artBeta] := rfl
    rw [he] at h
    have hhead : artBeta = artAlpha := by injection h
    have : artBeta.name = artAlpha.name := congrArg ComponentArtifact.name hhead
    simp [artBeta, artAlpha, to_artifact, mkComponent] at this

/-! ## Trace lemmas for the build pipeline -/

theorem isValidate_excludes_writes (e : BuildEvent) (h : e.isValidate = true) :
    e.isArchiveWrite = false ∧ e.isDiagWrite = false := by
  cases e <;> simp_all [BuildEvent.isValidate, BuildEvent.isArchiveWrite,
    BuildEvent.isDiagWrite]

theorem build_loop_ok_spec (env : BuildEnv) (flowDoc : Json) :
    ∀ (nodes : List NodeRef) (resolved : List ResolvedNode)
      (errs : List NodeSchemaError) (evs : List BuildEvent),
      build_loop env flowDoc nodes = .ok (resolved, errs, evs) →
      errs = resolved.flatMap env.validate ∧ (∀ e ∈ evs, e.isValidate = true) := by
  intro nodes
  induction nodes with
  | nil =>
    intro resolved errs evs h
    simp only [build_loop, Except.ok.injEq, Prod.mk.injEq] at h
    obtain ⟨h1, h2, h3⟩ := h
    subst h1; subst h2; subst h3
    exact ⟨rfl, by simp⟩
  | cons node rest ih =>
    intro resolved errs evs h
    simp only [build_loop] at h
    by_cases hb : is_builtin_component node.name = true
    · rw [if_pos hb] at h
      by_cases he : (node.name == "component.exec") = true
      · rw [if_pos he] at h
        rcases hex : resolve_component_exec_node env.resolveComponent
            env.parseVersionReq node flowDoc with e | o
        · rw [hex] at h; exact absurd h (by simp)
        · rw [hex] at h
          cases o with
          | none => exact ih resolved errs evs h
          | some exec_node =>
            rcases hrest : build_loop env flowDoc rest with e | t
            · rw [hrest] at h; exact absurd h (by simp)
            · obtain ⟨rs, es, evs'⟩ := t
              rw [hrest] at h
              simp only [Except.ok.injEq, Prod.mk.injEq] at h
              obtain ⟨h1, h2, h3⟩ := h
              subst h1; subst h2; subst h3
              obtain ⟨ih1, ih2⟩ := ih rs es evs' hrest
              refine ⟨by simp [ih1], ?_⟩
              intro e hme
              rcases List.mem_cons.mp hme with h | h
              · subst h; rfl
              · exact ih2 e h
      · rw [if_neg he] at h; exact ih resolved errs evs h
    · rw [if_neg hb] at h
      rcases hres : resolve_node env.resolveComponent node flowDoc with e | rnode
      · rw [hres] at h; exact absurd h (by simp)
      · rw [hres] at h
        rcases hrest : build_loop env flowDoc rest with e | t
        · rw [hrest] at h; exact absurd h (by simp)
        · obtain ⟨rs, es, evs'⟩ := t
          rw [hrest] at h
          simp only [Except.ok.injEq, Prod.mk.injEq] at h
          obtain ⟨h1, h2, h3⟩ := h
          subst h1; subst h2; subst h3
          obtain ⟨ih1, ih2⟩ := ih rs es evs' hrest
          refine ⟨by simp [ih1], ?_⟩
          intro e hme
          rcases List.mem_cons.mp hme with h | h
          · subst h; rfl
          · exact ih2 e h

theorem write_resolved_configs_events_diag (nodes : List ResolvedNode) :
    ∀ e ∈ write_resolved_configs_events nodes,
      e.isValidate = false ∧ e.isDiagWrite = true ∧ e.isArchiveWrite = false := by
  intro e he
  simp only [write_resolved_configs_events, List.mem_map] at he
  obtain ⟨n, _, h⟩ := he
  subst h
  exact ⟨rfl, rfl, rfl⟩

theorem foldl_line_extends (l : List NodeSchemaError) :
    ∀ acc : String, ∃ s, l.foldl (fun a e => a ++ schema_error_line e) acc = acc ++ s := by
  induction l with
  | nil => intro acc; exact ⟨"", (String.append_empty acc).symm⟩
  | cons a rest ih =>
    intro acc
    obtain ⟨s, hs⟩ := ih (acc ++ schema_error_line a)
    refine ⟨schema_error_line a ++ s, ?_⟩
    rw [List.foldl_cons, hs, String.append_assoc]

theorem schema_error_message_mem (e : NodeSchemaError) :
    ∀ (errors : List NodeSchemaError), e ∈ errors →
      ∀ acc : String, ∃ pre post,
        errors.foldl (fun a err => a ++ schema_error_line err) acc
          = pre ++ schema_error_line e ++ post := by
  intro errors
  induction errors with
  | nil => intro he; cases he
  | cons a rest ih =>
    intro he acc
    rcases List.mem_cons.mp he with h | h
    · subst h
      obtain ⟨s, hs⟩ := foldl_line_extends rest (acc ++ schema_error_line e)
      exact ⟨acc, s, by rw [List.foldl_cons]; exact hs⟩
    · obtain ⟨pre, post, hp⟩ := ih h (acc ++ schema_error_line a)
      exact ⟨pre, post, by rw [List.foldl_cons]; exact hp⟩

/-! ## C2: schema errors are aggregated and abort the build -/

/-- C2: when the resolution loop completes and at least one resolved node has
schema violations, `build_once` fails with the `report_schema_errors` message,
the aggregated list holds every resolved node's errors in node order (the loop
does not stop at the first failing node), the message renders every collected
error, and the trace contains no archive write and no diagnostics write. -/
theorem build_aborts_on_schema_errors
    (env : BuildEnv) (inp : BuildInput) (resolved : List ResolvedNode)
    (errs : List NodeSchemaError) (evs : List BuildEvent)
    (hloop : build_loop env inp.flowDoc inp.bundle.nodes = .ok (resolved, errs, evs))
    (hne : errs ≠ []) :
    (build_once env inp).1 = .error (report_schema_errors_text errs) ∧
    errs = resolved.flatMap env.validate ∧
    (∀ e ∈ errs, ∃ pre post,
      report_schema_errors_text errs = pre ++ schema_error_line e ++ post) ∧
    (∀ ev ∈ (build_once env inp).2,
      ev.isArchiveWrite = false ∧ ev.isDiagWrite = false) := by
  have hspec := build_loop_ok_spec env inp.flowDoc inp.bundle.nodes resolved errs evs hloop
  have hemp : errs.isEmpty = false := by
    cases errs with
    | nil => exact absurd rfl hne
    | cons a l => rfl
  have hbo : build_once env inp
      = (.error (report_schema_errors_text errs), evs) := by
    unfold build_once
    rw [hloop]
    dsimp only
    rw [if_neg (by rw [hemp]; exact Bool.false_ne_true)]
  refine ⟨by rw [hbo], hspec.1, ?_, ?_⟩
  · intro e he
    obtain ⟨pre, post, hp⟩ := schema_error_message_mem e errs he ""
    refine ⟨"component schema validation failed:\n" ++ pre, post, ?_⟩
    unfold report_schema_errors_text schema_error_message
    rw [hp, ← String.append_assoc, ← String.append_assoc]
  · intro ev hev
    rw [hbo] at hev
    exact isValidate_excludes_writes ev (hspec.2 ev hev)

/-- Witness for C2: the concrete single-node build whose validator rejects
`n1` fails with the aggregated message and writes nothing. -/
theorem build_aborts_on_schema_errors_witness :
    (build_once envReject (inputN1 ambient0)).1
      = .error (report_schema_errors_text [schemaErrN1]) ∧
    [schemaErrN1] = [resolvedEchoN1].flatMap envReject.validate :=
  have T := build_aborts_on_schema_errors envReject (inputN1 ambient0)
    [resolvedEchoN1] [schemaErrN1] [.validateNode "n1"] rfl (by simp)
  ⟨T.1, T.2.1⟩

/-! ## C4: validation versus normalization order -/

theorem build_once_trace_split (env : BuildEnv) (inp : BuildInput)
    (resolved : List ResolvedNode) (errs : List NodeSchemaError) (evs : List BuildEvent)
    (hloop : build_loop env inp.flowDoc inp.bundle.nodes = .ok (resolved, errs, evs)) :
    ∃ rest, (build_once env inp).2 = evs ++ rest ∧
      ∀ e ∈ rest, e.isValidate = false := by
  unfold build_once
  rw [hloop]
  dsimp only
  by_cases hemp : errs.isEmpty = true
  · rw [if_pos hemp]
    rcases hens : ensure_node_operations env.parse inp.flowDoc resolved with e | flow'
    · exact ⟨[], by simp, by simp⟩
    · dsimp only
      rcases hmeta : load_pack_meta env.parseVersion env.packVersionDefault
          inp.descriptor inp.bundle inp.ambient.now_rfc3339 with e | meta
      · refine ⟨.normalizeConfigs :: write_resolved_configs_events resolved,
          by simp [List.append_assoc], ?_⟩
        intro e he
        rcases List.mem_cons.mp he with h | h
        · subst h; rfl
        · exact (write_resolved_configs_events_diag resolved e h).1
      · dsimp only
        rcases hasm : env.assemble (mk_assemble_input env inp resolved flow' meta)
            with e | o
        · refine ⟨.normalizeConfigs :: write_resolved_configs_events resolved,
            by simp [List.append_assoc], ?_⟩
          intro e he
          rcases List.mem_cons.mp he with h | h
          · subst h; rfl
          · exact (write_resolved_configs_events_diag resolved e h).1
        · refine ⟨.normalizeConfigs :: (write_resolved_configs_events resolved
            ++ [.writeArchive inp.output_path
              (mk_assemble_input env inp resolved flow' meta)]),
            by simp [List.append_assoc], ?_⟩
          intro e he
          rcases List.mem_cons.mp he with h | h
          · subst h; rfl
          · rcases List.mem_append.mp h with h1 | h1
            · exact (write_resolved_configs_events_diag resolved e h1).1
            · simp only [List.mem_singleton] at h1
              subst h1; rfl
  · rw [if_neg hemp]
    exact ⟨[], by simp, by simp⟩

theorem vpn_aux_no_validate (l : List BuildEvent) :
    ∀ s, (∀ e ∈ l, e.isValidate = false) →
      validation_precedes_normalization_aux s l = true := by
  induction l with
  | nil => intro s _; rfl
  | cons e rest ih =>
    intro s h
    cases e with
    | validateNode nid =>
      exact absurd (h _ (List.mem_cons_self _ _)) (by simp [BuildEvent.isValidate])
    | normalizeConfigs => exact ih true (fun x hx => h x (List.mem_cons_of_mem _ hx))
    | writeDiagnostics p c => exact ih s (fun x hx => h x (List.mem_cons_of_mem _ hx))
    | writeArchive p i => exact ih s (fun x hx => h x (List.mem_cons_of_mem _ hx))

theorem vpn_append (rest : List BuildEvent)
    (hr : ∀ e ∈ rest, e.isValidate = false) :
    ∀ l, (∀ e ∈ l, e.isValidate = true) →
      validation_precedes_normalization_aux false (l ++ rest) = true := by
  intro l
  induction l with
  | nil => intro _; exact vpn_aux_no_validate rest false hr
  | cons e t ih =>
    intro hl
    cases e with
    | validateNode nid =>
      have := ih (fun x hx => hl x (List.mem_cons_of_mem _ hx))
      simp only [List.cons_append, validation_precedes_normalization_aux,
        Bool.not_false, Bool.true_and]
      exact this
    | normalizeConfigs =>
      exact absurd (hl _ (List.mem_cons_self _ _)) (by simp [BuildEvent.isValidate])
    | writeDiagnostics p c =>
      exact absurd (hl _ (List.mem_cons_self _ _)) (by simp [BuildEvent.isValidate])
    | writeArchive p i =>
      exact absurd (hl _ (List.mem_cons_self _ _)) (by simp [BuildEvent.isValidate])

/-- C4 amended: in every build, schema validation happens during node
resolution, before config normalization: in the trace of any `build_once` run,
no schema-validation event ever follows the normalization event (the actual
pipeline order is Node Resolver / Schema Validator interleaved per node, then
Config Normalizer). -/
theorem validation_always_precedes_normalization (env : BuildEnv) (inp : BuildInput) :
    validation_precedes_normalization (build_once env inp).2 = true := by
  rcases hloop : build_loop env inp.flowDoc inp.bundle.nodes with e | t
  · have htr : (build_once env inp).2 = [] := by
      unfold build_once
      rw [hloop]
    rw [htr]
    rfl
  · obtain ⟨resolved, errs, evs⟩ := t
    have hval := (build_loop_ok_spec env inp.flowDoc inp.bundle.nodes
      resolved errs evs hloop).2
    obtain ⟨rest, htr, hrest⟩ := build_once_trace_split env inp resolved errs evs hloop
    rw [htr]
    exact vpn_append rest hrest evs hval

/-- C4 counterexample: the concrete successful single-node build validates
`n1` as its first trace event and normalizes configurations only afterwards,
so the claimed order (Config Normalizer before Schema Validator) is violated:
the spec §2 order predicate is false on this build's trace. -/
theorem normalization_does_not_precede_validation_cex :
    (build_once envAccept (inputN1 ambient0)).1 = .ok "archive" ∧
    normalization_precedes_validation (build_once envAccept (inputN1 ambient0)).2
      = false :=
  ⟨rfl, rfl⟩

/-! ## C7: diagnostics snapshots -/

theorem build_once_success_trace (env : BuildEnv) (inp : BuildInput) (out : String)
    (resolved : List ResolvedNode) (errs : List NodeSchemaError) (evs : List BuildEvent)
    (hloop : build_loop env inp.flowDoc inp.bundle.nodes = .ok (resolved, errs, evs))
    (hok : (build_once env inp).1 = .ok out) :
    ∃ flow' meta,
      ensure_node_operations env.parse inp.flowDoc resolved = .ok flow' ∧
      load_pack_meta env.parseVersion env.packVersionDefault inp.descriptor
        inp.bundle inp.ambient.now_rfc3339 = .ok meta ∧
      env.assemble (mk_assemble_input env inp resolved flow' meta) = .ok out ∧
      errs = [] ∧
      (build_once env inp).2
        = evs ++ [.normalizeConfigs] ++ write_resolved_configs_events resolved
            ++ [.writeArchive inp.output_path
                (mk_assemble_input env inp resolved flow' meta)] := by
  unfold build_once at hok
  rw [hloop] at hok
  dsimp only at hok
  by_cases hemp : errs.isEmpty = true
  case neg =>
    rw [if_neg hemp] at hok
    exact absurd hok (by simp)
  rw [if_pos hemp] at hok
  rcases hens : ensure_node_operations env.parse inp.flowDoc resolved with e | flow'
  · rw [hens] at hok; exact absurd hok (by simp)
  rw [hens] at hok
  dsimp only at hok
  rcases hmeta : load_pack_meta env.parseVersion env.packVersionDefault
      inp.descriptor inp.bundle inp.ambient.now_rfc3339 with e | meta
  · rw [hmeta] at hok; exact absurd hok (by simp)
  rw [hmeta] at hok
  dsimp only at hok
  rcases hasm : env.assemble (mk_assemble_input env inp resolved flow' meta) with e | o
  · rw [hasm] at hok; exact absurd hok (by simp)
  rw [hasm] at hok
  dsimp only at hok
  simp only [Except.ok.injEq] at hok
  subst hok
  refine ⟨flow', meta, rfl, rfl, hasm, ?_, ?_⟩
  · cases errs with
    | nil => rfl
    | cons a l => exact absurd hemp (by simp)
  · unfold build_once
    rw [hloop]
    dsimp only
    rw [if_pos hemp, hens]
    dsimp only
    rw [hmeta]
    dsimp only
    rw [hasm]

/-- C7 amended: for every successful build, the trace's diagnostics writes
are exactly one file `<node_id>.json` per resolved node, in node order, whose
JSON records the node id, component name, component version, and the node's
resolution-time configuration — the `ResolvedNode.config` snapshot, which the
later operation backfill (acting on the flow document only) does not
update. -/
theorem diagnostics_one_snapshot_per_node
    (env : BuildEnv) (inp : BuildInput) (out : String)
    (resolved : List ResolvedNode) (errs : List NodeSchemaError) (evs : List BuildEvent)
    (hloop : build_loop env inp.flowDoc inp.bundle.nodes = .ok (resolved, errs, evs))
    (hok : (build_once env inp).1 = .ok out) :
    (build_once env inp).2.filter BuildEvent.isDiagWrite
      = write_resolved_configs_events resolved ∧
    (∀ n ∈ resolved,
      (resolved_config_json n).get "node_id" = some (.str n.node_id) ∧
      (resolved_config_json n).get "component" = some (.str n.component.name) ∧
      (resolved_config_json n).get "version" = some (.str n.component.version) ∧
      (resolved_config_json n).get "config" = some n.config) := by
  obtain ⟨flow', meta, hens, hmeta, hasm, herrs, htr⟩ :=
    build_once_success_trace env inp out resolved errs evs hloop hok
  have hval := (build_loop_ok_spec env inp.flowDoc inp.bundle.nodes
    resolved errs evs hloop).2
  constructor
  · rw [htr]
    rw [List.filter_append, List.filter_append, List.filter_append]
    have h1 : evs.filter BuildEvent.isDiagWrite = [] := by
      rw [List.filter_eq_nil_iff]
      intro e he
      simp [(isValidate_excludes_writes e (hval e he)).2]
    have h3 : (write_resolved_configs_events resolved).filter BuildEvent.isDiagWrite
        = write_resolved_configs_events resolved := by
      rw [List.filter_eq_self]
      intro e he
      exact (write_resolved_configs_events_diag resolved e he).2.1
    have h2 : List.filter BuildEvent.isDiagWrite [BuildEvent.normalizeConfigs] = [] := rfl
    have h4 : List.filter BuildEvent.isDiagWrite
        [BuildEvent.writeArchive inp.output_path
          (mk_assemble_input env inp resolved flow' meta)] = [] := rfl
    rw [h1, h2, h3, h4]
    simp
  · intro n hn
    exact ⟨rfl, rfl, rfl, rfl⟩

/-- Witness for C7 (amended): the successful single-node build writes exactly
the one snapshot for `n1`. -/
theorem diagnostics_one_snapshot_per_node_witness :
    (build_once envAccept (inputN1 ambient0)).2.filter BuildEvent.isDiagWrite
      = write_resolved_configs_events [resolvedEchoN1] :=
  (diagnostics_one_snapshot_per_node envAccept (inputN1 ambient0) "archive"
    [resolvedEchoN1] [] [.validateNode "n1"] rfl rfl).1

/-- C7 counterexample: in the successful concrete build, the only diagnostics
file (`n1.json`) records the resolution-time configuration `{}`, while the
final configuration after backfill — inside the flow document handed to the
assembler — carries `operation: "echo"` and `op: "echo"`; the snapshot is not
the configuration after normalization. -/
theorem diagnostics_snapshot_lacks_backfilled_operation :
    (build_once envAccept (inputN1 ambient0)).1 = .ok "archive" ∧
    (build_once envAccept (inputN1 ambient0)).2.filter BuildEvent.isDiagWrite
      = [.writeDiagnostics ".greentic/resolved_config/n1.json"
          (.obj [("node_id", .str "n1"), ("component", .str "echo"),
                 ("version", .str "1.0.0"), ("config", .obj [])])] ∧
    ensure_node_operations parseEchoObj flowDocN1 [resolvedEchoN1]
      = .ok flowDocN1Final ∧
    (((flowDocN1Final.get "nodes").bind (fun ns => ns.get "n1")).bind
        (fun e => e.get "echo"))
      = some (.obj [("operation", .str "echo"), ("op", .str "echo")]) ∧
    (Json.obj []).get "operation" = none ∧
    (some (Json.obj []) : Option Json)
      ≠ some (.obj [("operation", .str "echo"), ("op", .str "echo")]) := by
  refine ⟨rfl, rfl, rfl, rfl, rfl, ?_⟩
  intro h
  simp at h

/-! ## C1: determinism in logical inputs -/

/-- C1 counterexample: two builds with identical flow source, identical
component search path contents, and identical (synthesized) metadata
descriptor, run at two different clock readings, hand different
`created_at_utc` and `built_at_utc` values to the archive assembler; with an
assembler that (as its §6 interface allows) serializes those fields, the two
archives differ byte-wise, so the build is not a function of the claim's
logical inputs alone. -/
theorem build_not_deterministic_in_logical_inputs :
    (inputN1 ambient0).flow_source = (inputN1 ambient7).flow_source ∧
    (inputN1 ambient0).flowDoc = (inputN1 ambient7).flowDoc ∧
    (inputN1 ambient0).bundle = (inputN1 ambient7).bundle ∧
    (inputN1 ambient0).descriptor = (inputN1 ambient7).descriptor ∧
    build_provenance ambient0 ≠ build_provenance ambient7 ∧
    (load_pack_meta (fun s => some s) 1 none bundleN1
        ambient0.now_rfc3339).map PackMeta.created_at_utc
      = .ok "2024-01-01T00:00:00Z" ∧
    (load_pack_meta (fun s => some s) 1 none bundleN1
        ambient7.now_rfc3339).map PackMeta.created_at_utc
      = .ok "2024-01-01T00:00:07Z" ∧
    (build_once envStamp (inputN1 ambient0)).1
      = .ok "2024-01-01T00:00:00Z|2024-01-01T00:00:00Z" ∧
    (build_once envStamp (inputN1 ambient7)).1
      = .ok "2024-01-01T00:00:07Z|2024-01-01T00:00:07Z" ∧
    (build_once envStamp (inputN1 ambient0)).1
      ≠ (build_once envStamp (inputN1 ambient7)).1 := by
  refine ⟨rfl, rfl, rfl, rfl, by decide, rfl, rfl, rfl, rfl, ?_⟩
  intro h
  have h1 : (build_once envStamp (inputN1 ambient0)).1
      = .ok "2024-01-01T00:00:00Z|2024-01-01T00:00:00Z" := rfl
  have h2 : (build_once envStamp (inputN1 ambient7)).1
      = .ok "2024-01-01T00:00:07Z|2024-01-01T00:00:07Z" := rfl
  rw [h1, h2] at h
  injection h with h
  exact absurd h (by decide)

theorem build_loop_congr (env₁ env₂ : BuildEnv) (flowDoc : Json)
    (hrc : env₁.resolveComponent = env₂.resolveComponent)
    (hpvr : env₁.parseVersionReq = env₂.parseVersionReq)
    (hval : env₁.validate = env₂.validate) :
    ∀ nodes, build_loop env₁ flowDoc nodes = build_loop env₂ flowDoc nodes := by
  intro nodes
  induction nodes with
  | nil => rfl
  | cons node rest ih =>
    simp only [build_loop, hrc, hpvr, hval, ih]

/-- C1 amended: the build is deterministic once, along with the logical
inputs, the ambient environment and the artifact iteration order are fixed.
For two runs agreeing on flow source, parsed flow document, validated bundle,
metadata descriptor, output path, signing mode, the ambient readings (clock,
hostname, git results, crate version) and the external collaborators of the
search path, and whose `HashMap::into_values` draws obey the map contract
(each run's artifact list is a permutation of the artifact map's values):
(1) whenever the two draws also order the values identically, the runs
produce identical results and traces — hence byte-identical archives;
(2) the resolution loop, (3) the config normalization, and (4) the metadata
load reach identical outcomes regardless of the draws; and (5) the inputs
handed to the assembler agree on metadata, flow document, YAML, bundle,
signing and provenance, with artifact lists that are permutations of one
another — the per-run-random artifact order being the one channel the other
conditions do not determine (see the C3 entry-order counterexample). -/
theorem build_deterministic_given_ambient_and_artifact_order
    (env₁ env₂ : BuildEnv) (inp₁ inp₂ : BuildInput)
    (hparse : env₁.parse = env₂.parse)
    (hpvr : env₁.parseVersionReq = env₂.parseVersionReq)
    (hpv : env₁.parseVersion = env₂.parseVersion)
    (hpkd : env₁.packVersionDefault = env₂.packVersionDefault)
    (hrc : env₁.resolveComponent = env₂.resolveComponent)
    (hval : env₁.validate = env₂.validate)
    (hasmf : env₁.assemble = env₂.assemble)
    (hflow : inp₁.flow_source = inp₂.flow_source)
    (hdoc : inp₁.flowDoc = inp₂.flowDoc)
    (hbundle : inp₁.bundle = inp₂.bundle)
    (hdesc : inp₁.descriptor = inp₂.descriptor)
    (hout : inp₁.output_path = inp₂.output_path)
    (hsig : inp₁.signing = inp₂.signing)
    (hamb : inp₁.ambient = inp₂.ambient)
    (horder₁ : ∀ l, (env₁.intoValues l).Perm (l.map Prod.snd))
    (horder₂ : ∀ l, (env₂.intoValues l).Perm (l.map Prod.snd)) :
    (env₁.intoValues = env₂.intoValues →
      build_once env₁ inp₁ = build_once env₂ inp₂) ∧
    build_loop env₁ inp₁.flowDoc inp₁.bundle.nodes
      = build_loop env₂ inp₂.flowDoc inp₂.bundle.nodes ∧
    (∀ resolved, ensure_node_operations env₁.parse inp₁.flowDoc resolved
      = ensure_node_operations env₂.parse inp₂.flowDoc resolved) ∧
    load_pack_meta env₁.parseVersion env₁.packVersionDefault inp₁.descriptor
        inp₁.bundle inp₁.ambient.now_rfc3339
      = load_pack_meta env₂.parseVersion env₂.packVersionDefault inp₂.descriptor
        inp₂.bundle inp₂.ambient.now_rfc3339 ∧
    (∀ resolved flow' meta,
      (mk_assemble_input env₁ inp₁ resolved flow' meta).meta
          = (mk_assemble_input env₂ inp₂ resolved flow' meta).meta ∧
      (mk_assemble_input env₁ inp₁ resolved flow' meta).flow_doc
          = (mk_assemble_input env₂ inp₂ resolved flow' meta).flow_doc ∧
      (mk_assemble_input env₁ inp₁ resolved flow' meta).flow_yaml
          = (mk_assemble_input env₂ inp₂ resolved flow' meta).flow_yaml ∧
      (mk_assemble_input env₁ inp₁ resolved flow' meta).bundle
          = (mk_assemble_input env₂ inp₂ resolved flow' meta).bundle ∧
      (mk_assemble_input env₁ inp₁ resolved flow' meta).signing
          = (mk_assemble_input env₂ inp₂ resolved flow' meta).signing ∧
      (mk_assemble_input env₁ inp₁ resolved flow' meta).prov
          = (mk_assemble_input env₂ inp₂ resolved flow' meta).prov ∧
      ((mk_assemble_input env₁ inp₁ resolved flow' meta).artifacts).Perm
        ((mk_assemble_input env₂ inp₂ resolved flow' meta).artifacts)) := by
  refine ⟨?_, ?_, ?_, ?_, ?_⟩
  · intro hio
    obtain ⟨e1, e2, e3, e4, e5, e6, e7, e8⟩ := env₁
    obtain ⟨f1, f2, f3, f4, f5, f6, f7, f8⟩ := env₂
    dsimp only at hparse hpvr hpv hpkd hrc hval hasmf hio
    subst hparse; subst hpvr; subst hpv; subst hpkd
    subst hrc; subst hval; subst hasmf; subst hio
    obtain ⟨a1, a2, a3, a4, a5, a6, a7⟩ := inp₁
    obtain ⟨b1, b2, b3, b4, b5, b6, b7⟩ := inp₂
    dsimp only at hflow hdoc hbundle hdesc hout hsig hamb
    subst hflow; subst hdoc; subst hbundle; subst hdesc
    subst hout; subst hsig; subst hamb
    rfl
  · rw [hdoc, hbundle]
    exact build_loop_congr env₁ env₂ inp₂.flowDoc hrc hpvr hval inp₂.bundle.nodes
  · intro resolved
    rw [hparse, hdoc]
  · rw [hpv, hpkd, hdesc, hbundle, hamb]
  · intro resolved flow' meta
    refine ⟨rfl, rfl, hflow, hbundle, hsig, ?_, ?_⟩
    · show build_provenance inp₁.ambient = build_provenance inp₂.ambient
      rw [hamb]
    · show (env₁.intoValues (collect_entries [] resolved)).Perm
        (env₂.intoValues (collect_entries [] resolved))
      exact (horder₁ _).trans (horder₂ _).symm

/-- Witness for C1 (amended): at the concrete single-node build, two
environments that differ only in the artifact-order draw (`envStamp` versus
the reverse-order `envStampRev`) run the resolution loop to the identical
outcome. -/
theorem build_deterministic_given_ambient_and_artifact_order_witness :
    build_loop envStamp (inputN1 ambient0).flowDoc (inputN1 ambient0).bundle.nodes
      = build_loop envStampRev (inputN1 ambient0).flowDoc
          (inputN1 ambient0).bundle.nodes :=
  (build_deterministic_given_ambient_and_artifact_order envStamp envStampRev
    (inputN1 ambient0) (inputN1 ambient0)
    rfl rfl rfl rfl rfl rfl rfl rfl rfl rfl rfl rfl rfl rfl
    (fun _ => List.Perm.refl _)
    (fun l => (l.map Prod.snd).reverse_perm)).2.1

end GreenticDev
